import Mathlib

/-!
Verification of the filtering-and-aggregation core of the climate
dashboard (`src/App.py`). The pandas tables are embedded as Lean lists of
records; float arithmetic is embedded as exact rational arithmetic (ℚ);
pandas boolean-mask row selection is embedded as `List.filter`; a float
`NaN` result is embedded as an explicit marker constructor.
-/

namespace Climate

/-- The fixed region enum of the temperature table (`App.py` lines 39/43). -/
inductive Region where
  | global
  | northernHemisphere
  | southernHemisphere
  | arctic
  | tropics
deriving DecidableEq, Repr

/-- One row of the temperature table: `Year`, `Temperature_Anomaly`, `Region`. -/
structure TempPoint where
  year : Int
  anomaly : ℚ
  region : Region
deriving DecidableEq, Repr

/-- One row of a single-valued series table (CO2 `CO2_ppm`, sea level
`Sea_Level_mm`). -/
structure SeriesPoint where
  year : Int
  value : ℚ
deriving DecidableEq, Repr

/-- The slider value `year_range` (`App.py` line 81): a pair of years.
`start` is `year_range[0]`, `stop` is `year_range[1]` (the field `end` is a
Lean keyword). -/
structure YearRange where
  start : Int
  stop : Int
deriving DecidableEq, Repr

/-- `filtered_temp` (`App.py` lines 98-102): rows whose `Year` lies in
`[year_range[0], year_range[1]]` and whose `Region` is in
`selected_regions`. -/
def filterTemperature (table : List TempPoint) (r : YearRange)
    (regionSet : List Region) : List TempPoint :=
  table.filter (fun p =>
    (r.start ≤ p.year) && (p.year ≤ r.stop) && (regionSet.contains p.region))

/-- `filtered_co2` / `filtered_sea` (`App.py` lines 103-110): rows whose
`Year` lies in `[year_range[0], year_range[1]]`. -/
def filterSeries (table : List SeriesPoint) (r : YearRange) : List SeriesPoint :=
  table.filter (fun p => (r.start ≤ p.year) && (p.year ≤ r.stop))

/-- `global_temp_data` (`App.py` lines 118-122): built from the BASE table
`temp_data` (not from `filtered_temp`), keeping the year range and
`Region == 'Global'` only. -/
def globalTempData (table : List TempPoint) (r : YearRange) : List TempPoint :=
  table.filter (fun p =>
    (r.start ≤ p.year) && (p.year ≤ r.stop) && (p.region == Region.global))

/-- The spec's `warmingRate(first, last, count)`: average per-decade
change, `(last.anomaly - first.anomaly) / count × 10` (`App.py` line 171). -/
def warmingRate (first last : ℚ) (count : ℕ) : ℚ :=
  (last - first) / (count : ℚ) * 10

/-- The key-metric block of columns 1 and 4 (`App.py` lines 116-137 and
169-182): from `global_temp_data` compute `latest_temp` (`iloc[-1]`),
the delta `latest_temp - first_temp` (`iloc[0]`), and `avg_increase`;
`none` embeds the `N/A` branch taken when `len(global_temp_data) == 0`.
The region selection `sel` is an input of the surrounding pipeline but is
never read by these lines — they filter the base table by year and the
literal `'Global'` only. -/
def globalMetrics (table : List TempPoint) (r : YearRange)
    (sel : List Region) : Option (ℚ × ℚ × ℚ) :=
  let g := globalTempData table r
  match g.getLast?, g.head? with
  | some l, some f =>
      some (l.anomaly, l.anomaly - f.anomaly,
        (l.anomaly - f.anomaly) / (g.length : ℚ) * 10)
  | _, _ => none

/-- `avg_increase` guarded by `if len(global_temp_data) > 0` (`App.py`
lines 170-176), abstracted over the already-filtered Global rows. -/
def avgIncrease (g : List TempPoint) : Option ℚ :=
  match g.getLast?, g.head? with
  | some l, some f => some ((l.anomaly - f.anomaly) / (g.length : ℚ) * 10)
  | _, _ => none

/-- Display state of a key-metric cell: a computed value or the `N/A`
placeholder. -/
inductive MetricDisplay where
  | value (latest delta : ℚ)
  | na
deriving DecidableEq, Repr

/-- The CO2 metric cell (`App.py` lines 139-152): if the filtered table is
non-empty show `iloc[-1]` and the delta to `iloc[0]`, else the `N/A`
placeholder ("Data starts from 1958"). -/
def co2Metric (filtered : List SeriesPoint) : MetricDisplay :=
  match filtered.getLast?, filtered.head? with
  | some l, some f => .value l.value (l.value - f.value)
  | _, _ => .na

/-- Python `range(a, b)` as a list of integers `a, a+1, ..., b-1`. -/
def intRange (a b : Int) : List Int :=
  (List.range (b - a).toNat).map (fun i : ℕ => a + (i : Int))

/-- The CO2 table of the generator (`App.py` lines 56-61): one row per
year in `range(1958, 2024)`, value `315 + (year - 1958) * 1.8 + noise`;
the gaussian noise draw is abstracted as a function of the year. -/
def co2Table (noise : Int → ℚ) : List SeriesPoint :=
  (intRange 1958 2024).map (fun y => ⟨y, 315 + (y - 1958) * (9/5) + noise y⟩)

/-- The projection block (`App.py` lines 313-320), generalized over its
parameters exactly as written: `projection_years = range(refYear, horizon)`
(Python `range`, so the reference year itself is INCLUDED and the horizon
year `2100` is EXCLUDED) and
`projected_rise = [lastValue + (year - refYear) * rate for year in projection_years]`,
zipped into the two columns of `projection_df`. -/
def project (refYear : Int) (lastValue : ℚ) (rate : ℚ) (horizon : Int) :
    List (Int × ℚ) :=
  (intRange refYear horizon).map (fun y => (y, lastValue + ((y - refYear : Int) : ℚ) * rate))

/-- Tail of pandas `Series.diff()` once the first value `prev` is fixed:
each cell is current minus previous. -/
def diffFrom (prev : ℚ) : List ℚ → List (Option ℚ)
  | [] => []
  | y :: ys => some (y - prev) :: diffFrom y ys

/-- pandas `Series.diff()` (`App.py` line 281): a column of the same
length as the input whose first cell is `NaN` (here `none`) and whose
cell `i` (`i ≥ 1`) is `input[i] - input[i-1]`. -/
def seriesDiff : List ℚ → List (Option ℚ)
  | [] => []
  | x :: xs => none :: diffFrom x xs

/-- The spec's `growthRate`: the sequence of defined (non-`NaN`)
first-difference values of the `Growth_Rate` column. -/
def growthRate (xs : List ℚ) : List ℚ :=
  (seriesDiff xs).reduceOption

/-- `(decade_avg['Year'] // 10) * 10` (`App.py` line 219): Python `//` is
floor division, `Int.fdiv` in Lean. -/
def decadeKey (y : Int) : Int :=
  (Int.fdiv y 10) * 10

/-- Mean of the anomaly column of a group of rows. -/
def meanAnomaly (l : List TempPoint) : ℚ :=
  (l.map TempPoint.anomaly).sum / (l.length : ℚ)

/-- `decade_summary` (`App.py` lines 218-220):
`groupby('Decade')['Temperature_Anomaly'].mean()` — one output row per
distinct decade key occurring in the input (keys sorted ascending, as
pandas `groupby` sorts), carrying the mean anomaly of that decade's
rows. -/
def decadeAverage (seq : List TempPoint) : List (Int × ℚ) :=
  let keys := ((seq.map (fun p => decadeKey p.year)).dedup).mergeSort (· ≤ ·)
  keys.map (fun k => (k, meanAnomaly (seq.filter (fun p => decadeKey p.year == k))))

/-- The left frame of the correlation merge (`App.py` line 342):
`temp_data[temp_data['Region'] == 'Global'][['Year', 'Temperature_Anomaly']]`. -/
def globalSeries (temp : List TempPoint) : List (Int × ℚ) :=
  (temp.filter (fun p => p.region == Region.global)).map (fun p => (p.year, p.anomaly))

/-- `pd.merge(..., on='Year', how='inner')` (`App.py` lines 341-346):
the inner join of two `(year, value)` series on year, in the left
frame's row order, pairing each left row with every right row of equal
year. -/
def mergeOnYear (a b : List (Int × ℚ)) : List (Int × (ℚ × ℚ)) :=
  a.flatMap (fun p => (b.filter (fun q => q.1 == p.1)).map (fun q => (p.1, (p.2, q.2))))

/-- The two value columns of a merged frame. -/
def valuePairs (j : List (Int × (ℚ × ℚ))) : List (ℚ × ℚ) :=
  j.map Prod.snd

/-- Column sums entering the Pearson formula. -/
def sumX (l : List (ℚ × ℚ)) : ℚ := (l.map Prod.fst).sum

def sumY (l : List (ℚ × ℚ)) : ℚ := (l.map Prod.snd).sum

def sumXY (l : List (ℚ × ℚ)) : ℚ := (l.map (fun p => p.1 * p.2)).sum

def sumXX (l : List (ℚ × ℚ)) : ℚ := (l.map (fun p => p.1 * p.1)).sum

def sumYY (l : List (ℚ × ℚ)) : ℚ := (l.map (fun p => p.2 * p.2)).sum

/-- `n·Σxy − Σx·Σy`: the covariance of the two columns scaled by `n²`
(exact over ℚ). -/
def covN (l : List (ℚ × ℚ)) : ℚ :=
  (l.length : ℚ) * sumXY l - sumX l * sumY l

/-- `n·Σx² − (Σx)²`: the variance of the first column scaled by `n²`. -/
def varXN (l : List (ℚ × ℚ)) : ℚ :=
  (l.length : ℚ) * sumXX l - sumX l * sumX l

/-- `n·Σy² − (Σy)²`: the variance of the second column scaled by `n²`. -/
def varYN (l : List (ℚ × ℚ)) : ℚ :=
  (l.length : ℚ) * sumYY l - sumY l * sumY l

/-- Result of pandas `Series.corr` (`App.py` line 367): a float that is
`NaN` — a returned placeholder value, not a raised exception — when fewer
than two observations exist or either column has zero variance; otherwise
the Pearson coefficient, represented exactly as `val c v` standing for the
real number `c / √v` (so the coefficient lies in `[-1, 1]` iff
`c² ≤ v`). -/
inductive CorrResult where
  | nan
  | val (cov varProd : ℚ)
deriving DecidableEq, Repr

/-- pandas Pearson correlation of the two columns of a joined frame:
`NaN` for fewer than two rows or a zero-variance column, else the exact
representation of `covN / √(varXN · varYN)`. -/
def pearson (l : List (ℚ × ℚ)) : CorrResult :=
  if l.length < 2 ∨ varXN l = 0 ∨ varYN l = 0 then CorrResult.nan
  else CorrResult.val (covN l) (varXN l * varYN l)

/-- `correlation` (`App.py` lines 341-367): pandas Pearson correlation of
`Temperature_Anomaly` and `CO2_ppm` over the inner join on `Year`. -/
def correlation (a b : List (Int × ℚ)) : CorrResult :=
  pearson (valuePairs (mergeOnYear a b))

end Climate

namespace Climate

/-- `List.contains` agrees with membership (regions compare by `==`). -/
theorem region_contains_iff (l : List Region) (a : Region) :
    l.contains a = true ↔ a ∈ l := by
  simp

/-- C1: `filterTemperature` returns exactly the subsequence of in-range,
in-selection points, in the original order, of cardinality at most the
original: it is a sublist of the table, every returned point satisfies the
year-range and region conditions, every sublist of the table all of whose
points satisfy them embeds in the result (so the result is the full such
subsequence), and its length is bounded by the table's. -/
theorem filterTemperature_exact (table : List TempPoint) (r : YearRange)
    (regionSet : List Region) :
    (filterTemperature table r regionSet).Sublist table ∧
    (∀ p ∈ filterTemperature table r regionSet,
      p ∈ table ∧ r.start ≤ p.year ∧ p.year ≤ r.stop ∧ p.region ∈ regionSet) ∧
    (∀ u : List TempPoint, u.Sublist table →
      (∀ p ∈ u, r.start ≤ p.year ∧ p.year ≤ r.stop ∧ p.region ∈ regionSet) →
      u.Sublist (filterTemperature table r regionSet)) ∧
    (filterTemperature table r regionSet).length ≤ table.length := by
  refine ⟨List.filter_sublist _, ?_, ?_, (List.filter_sublist _).length_le⟩
  · intro p hp
    rw [filterTemperature, List.mem_filter] at hp
    obtain ⟨hmem, hpred⟩ := hp
    simp only [Bool.and_eq_true, decide_eq_true_eq, region_contains_iff] at hpred
    exact ⟨hmem, hpred.1.1, hpred.1.2, hpred.2⟩
  · intro u hu hall
    have hid : u.filter (fun p =>
        (r.start ≤ p.year) && (p.year ≤ r.stop) && (regionSet.contains p.region)) = u := by
      apply List.filter_eq_self.mpr
      intro p hp
      obtain ⟨h1, h2, h3⟩ := hall p hp
      simp only [Bool.and_eq_true, decide_eq_true_eq, region_contains_iff]
      exact ⟨⟨h1, h2⟩, h3⟩
    have hsub := hu.filter (fun p =>
      (r.start ≤ p.year) && (p.year ≤ r.stop) && (regionSet.contains p.region))
    rw [hid] at hsub
    exact hsub

/-- C5: filtering is idempotent — applying `filterTemperature` (or
`filterSeries`) to its own output with the same range and selection
returns the same sequence. -/
theorem filter_idempotent (table : List TempPoint) (r : YearRange)
    (regionSet : List Region) (stable : List SeriesPoint) :
    filterTemperature (filterTemperature table r regionSet) r regionSet =
      filterTemperature table r regionSet ∧
    filterSeries (filterSeries stable r) r = filterSeries stable r := by
  constructor
  · apply List.filter_eq_self.mpr
    intro p hp
    exact (List.mem_filter.mp hp).2
  · apply List.filter_eq_self.mpr
    intro p hp
    exact (List.mem_filter.mp hp).2

/-- C9: the key Global-temperature metrics (latest anomaly, delta since
range start, warming rate) are computed from the Global rows of the base
table filtered by year range only; for a fixed year range any two region
selections — the empty one included — yield identical metric values. -/
theorem globalMetrics_independent_of_selection (table : List TempPoint)
    (r : YearRange) (sel sel' : List Region) :
    globalMetrics table r sel = globalMetrics table r sel' ∧
    globalMetrics table r sel = globalMetrics table r [] := ⟨rfl, rfl⟩

/-- C10: for an inverted year range (`start > end`) all three filters
return the empty sequence rather than raising a validation error. -/
theorem inverted_range_empty (temp : List TempPoint)
    (co2 sea : List SeriesPoint) (r : YearRange) (sel : List Region)
    (h : r.stop < r.start) :
    filterTemperature temp r sel = [] ∧
    filterSeries co2 r = [] ∧
    filterSeries sea r = [] := by
  refine ⟨?_, ?_, ?_⟩ <;>
  · apply List.filter_eq_nil_iff.mpr
    intro p _
    simp only [Bool.and_eq_true, decide_eq_true_eq, not_and]
    intro hc
    omega

/-- Witness for C10 at the spec's own example `YearRange(2000, 1999)`. -/
theorem inverted_range_empty_witness :
    filterTemperature [⟨1999, 1, Region.global⟩] ⟨2000, 1999⟩ [Region.global] = [] ∧
    filterSeries [(⟨1999, 1⟩ : SeriesPoint)] ⟨2000, 1999⟩ = [] ∧
    filterSeries [(⟨2000, 2⟩ : SeriesPoint)] ⟨2000, 1999⟩ = [] :=
  inverted_range_empty [⟨1999, 1, Region.global⟩] [⟨1999, 1⟩] [⟨2000, 2⟩]
    ⟨2000, 1999⟩ [Region.global] (by decide)

/-- The defined cells of `diffFrom prev ys` are exactly the differences of
consecutive elements of `prev :: ys`. -/
theorem diffFrom_reduceOption (ys : List ℚ) :
    ∀ prev : ℚ, (diffFrom prev ys).reduceOption =
      ((prev :: ys).zip ys).map (fun q => q.2 - q.1) := by
  induction ys with
  | nil => intro prev; rfl
  | cons y ys ih =>
      intro prev
      simp only [diffFrom, List.reduceOption_cons_of_some, List.zip_cons_cons,
        List.map_cons, ih y]

/-- C3: `growthRate` is the list of first-differences of consecutive
values, so its length is the input length minus one (`0` for length `≤ 1`);
on the noise-free CO2 values `315.0, 316.8, 318.6` it returns
`[1.8, 1.8]`. -/
theorem growthRate_spec (xs : List ℚ) :
    growthRate xs = (xs.zip xs.tail).map (fun q => q.2 - q.1) ∧
    (growthRate xs).length = xs.length - 1 ∧
    growthRate [315, 316.8, 318.6] = [1.8, 1.8] := by
  have hmain : ∀ l : List ℚ, growthRate l = (l.zip l.tail).map (fun q => q.2 - q.1) := by
    intro l
    match l with
    | [] => rfl
    | x :: xs =>
        show (none :: diffFrom x xs).reduceOption = _
        rw [List.reduceOption_cons_of_none, diffFrom_reduceOption]
        rfl
  refine ⟨hmain xs, ?_, ?_⟩
  · rw [hmain xs, List.length_map, List.length_zip, List.length_tail]
    omega
  · rw [hmain [315, 316.8, 318.6]]
    norm_num

/-- C6: the warming-rate metric equals
`(last.anomaly - first.anomaly) / count × 10` whenever the filtered Global
rows are non-empty (`count > 0`), and is never computed (`N/A` branch)
when `count = 0`. -/
theorem avgIncrease_spec (g : List TempPoint) :
    (∀ f l : TempPoint, g.head? = some f → g.getLast? = some l →
      avgIncrease g = some (warmingRate f.anomaly l.anomaly g.length)) ∧
    (g.length = 0 → avgIncrease g = none) := by
  constructor
  · intro f l hf hl
    rw [avgIncrease, hf, hl, warmingRate]
  · intro h
    rw [List.length_eq_zero.mp h]
    rfl

/-- Witness for C6 on a one-row Global table. -/
theorem avgIncrease_spec_witness :
    avgIncrease [⟨2023, 1, Region.global⟩] =
      some (warmingRate 1 1 ([(⟨2023, 1, Region.global⟩ : TempPoint)].length)) :=
  (avgIncrease_spec [⟨2023, 1, Region.global⟩]).1
    ⟨2023, 1, Region.global⟩ ⟨2023, 1, Region.global⟩ rfl rfl

/-- C8: a year range entirely below a series' native domain (every table
year is at least `lo` and the range ends before `lo`, e.g. a CO2 range
entirely before 1958) filters to the empty sequence — not an error — and
the downstream metric cell renders the `N/A` placeholder state. -/
theorem out_of_domain_empty (lo : Int) (table : List SeriesPoint)
    (r : YearRange) (hdom : ∀ p ∈ table, lo ≤ p.year) (hr : r.stop < lo) :
    filterSeries table r = [] ∧
    co2Metric (filterSeries table r) = MetricDisplay.na := by
  have hempty : filterSeries table r = [] := by
    apply List.filter_eq_nil_iff.mpr
    intro p hp
    simp only [Bool.and_eq_true, decide_eq_true_eq, not_and]
    intro _
    have := hdom p hp
    omega
  exact ⟨hempty, by rw [hempty]; rfl⟩

/-- Witness for C8: the generator's CO2 table (noise fixed to zero) with
the range 1900-1950, entirely before 1958. -/
theorem out_of_domain_empty_witness :
    filterSeries (co2Table (fun _ => 0)) ⟨1900, 1950⟩ = [] ∧
    co2Metric (filterSeries (co2Table (fun _ => 0)) ⟨1900, 1950⟩) =
      MetricDisplay.na :=
  out_of_domain_empty 1958 (co2Table (fun _ => 0)) ⟨1900, 1950⟩
    (by decide) (by decide)

/-- Counterexample to C2 as stated: the projection block uses Python
`range(refYear, horizon)`, so with last known point `(2023, 100.0)`,
rate `3.3` and target year `2025` the code yields
`[(2023, 100.0), (2024, 103.3)]` — the start year is included and the
target year excluded — not `[(2024, 103.3), (2025, 106.6)]`. -/
theorem project_example_counterexample :
    project 2023 100 (33/10) 2025 ≠ [(2024, (103.3 : ℚ)), (2025, (106.6 : ℚ))] ∧
    project 2023 100 (33/10) 2025 = [(2023, (100 : ℚ)), (2024, (103.3 : ℚ))] := by
  have hr : intRange 2023 2025 = [2023, 2024] := by decide
  have heq : project 2023 100 (33/10) 2025 =
      [(2023, (100 : ℚ)), (2024, (103.3 : ℚ))] := by
    rw [project, hr]
    norm_num
  refine ⟨?_, heq⟩
  rw [heq]
  intro h
  simp only [List.cons.injEq, Prod.mk.injEq] at h
  omega

/-- C2 amended: the projected years run from the last known year
(INCLUSIVE) up to the target year (EXCLUSIVE), the `k`-th projected pair
being `(refYear + k, lastValue + k × rate)`; in particular the example
inputs yield `[(2023, 100.0), (2024, 103.3)]`. -/
theorem project_spec (refYear : Int) (lastValue rate : ℚ) (horizon : Int)
    (k : ℕ) (hk : k < (horizon - refYear).toNat) :
    (project refYear lastValue rate horizon).length = (horizon - refYear).toNat ∧
    (project refYear lastValue rate horizon)[k]? =
      some (refYear + k, lastValue + (k : ℚ) * rate) := by
  constructor
  · rw [project, List.length_map, intRange, List.length_map, List.length_range]
  · rw [project, List.getElem?_map, intRange, List.getElem?_map,
      List.getElem?_range hk]
    have h1 : (refYear + (k : Int) - refYear) = (k : Int) := by ring
    simp only [Option.map_some']
    rw [h1]
    norm_num

/-- Witness for C2's amended theorem at the example inputs, `k = 1`. -/
theorem project_spec_witness :
    (project 2023 100 (33/10) 2025).length = ((2025 - 2023 : Int)).toNat ∧
    (project 2023 100 (33/10) 2025)[1]? =
      some (((2023 : Int) + ((1 : ℕ) : Int) : Int),
        (100 : ℚ) + ((1 : ℕ) : ℚ) * (33/10)) :=
  project_spec 2023 100 (33/10) 2025 1 (by decide)

/-- The keys column of `decadeAverage` is the sorted deduplication of the
pointwise decade keys. -/
theorem decadeAverage_keys (seq : List TempPoint) :
    (decadeAverage seq).map Prod.fst =
      ((seq.map (fun p => decadeKey p.year)).dedup).mergeSort (· ≤ ·) := by
  rw [decadeAverage, List.map_map]
  apply List.map_id'

/-- C7: every input point falls under exactly one decade key, namely
`floor(year/10)×10` (keys are present and appear once); a key is in the
map exactly when some point of the input has that decade (absent decades
are not zero-filled); and each mapped value is the mean anomaly of the
key's group: it satisfies `mean × groupSize = groupSum` with
`groupSize > 0`. -/
theorem decadeAverage_spec (seq : List TempPoint) :
    (∀ k : Int, k ∈ (decadeAverage seq).map Prod.fst ↔
      ∃ p ∈ seq, decadeKey p.year = k) ∧
    ((decadeAverage seq).map Prod.fst).Nodup ∧
    (∀ k m, (k, m) ∈ decadeAverage seq →
      0 < (seq.filter (fun p => decadeKey p.year == k)).length ∧
      m * ((seq.filter (fun p => decadeKey p.year == k)).length : ℚ) =
        ((seq.filter (fun p => decadeKey p.year == k)).map TempPoint.anomaly).sum) := by
  have hkeys := decadeAverage_keys seq
  have hmemkeys : ∀ k : Int, k ∈ (decadeAverage seq).map Prod.fst ↔
      ∃ p ∈ seq, decadeKey p.year = k := by
    intro k
    rw [hkeys, List.mem_mergeSort, List.mem_dedup, List.mem_map]
  refine ⟨hmemkeys, ?_, ?_⟩
  · rw [hkeys]
    exact ((List.mergeSort_perm _ _).nodup_iff).mpr (List.nodup_dedup _)
  · intro k m hkm
    rw [decadeAverage, List.mem_map] at hkm
    obtain ⟨k', hk', heq⟩ := hkm
    rw [Prod.mk.injEq] at heq
    obtain ⟨rfl, rfl⟩ := heq
    have hkmem : k' ∈ (decadeAverage seq).map Prod.fst := by
      rw [hkeys]; exact hk'
    obtain ⟨p, hp, hpk⟩ := (hmemkeys k').mp hkmem
    have hpfilter : p ∈ seq.filter (fun p => decadeKey p.year == k') := by
      rw [List.mem_filter]
      exact ⟨hp, by simp [hpk]⟩
    have hlen : 0 < (seq.filter (fun p => decadeKey p.year == k')).length :=
      List.length_pos.mpr (List.ne_nil_of_mem hpfilter)
    refine ⟨hlen, ?_⟩
    rw [meanAnomaly]
    have hne : ((seq.filter (fun p => decadeKey p.year == k')).length : ℚ) ≠ 0 := by
      exact_mod_cast Nat.pos_iff_ne_zero.mp hlen
    exact div_mul_cancel₀ _ hne

/-- A mapped list sum as a `Finset` sum over positions. -/
theorem sum_map_eq_sum_fin (l : List (ℚ × ℚ)) (f : ℚ × ℚ → ℚ) :
    (l.map f).sum = ∑ i : Fin l.length, f l[(i : ℕ)] := by
  rw [← List.ofFn_getElem_eq_map, List.sum_ofFn]

/-- Cauchy-Schwarz for two derived columns of a list of pairs. -/
theorem list_cauchy_schwarz (l : List (ℚ × ℚ)) (f g : ℚ × ℚ → ℚ) :
    (l.map (fun p => f p * g p)).sum ^ 2 ≤
      (l.map (fun p => f p * f p)).sum * (l.map (fun p => g p * g p)).sum := by
  rw [sum_map_eq_sum_fin, sum_map_eq_sum_fin, sum_map_eq_sum_fin]
  have h := Finset.sum_mul_sq_le_sq_mul_sq Finset.univ
    (fun i : Fin l.length => f l[(i : ℕ)]) (fun i : Fin l.length => g l[(i : ℕ)])
  simpa only [pow_two] using h

/-- Expanding a sum of products of affinely transformed columns. -/
theorem expand_centered_sum (l : List (ℚ × ℚ)) (n a b : ℚ) (f g : ℚ × ℚ → ℚ) :
    (l.map (fun p => (n * f p - a) * (n * g p - b))).sum =
      n * n * (l.map (fun p => f p * g p)).sum - n * b * (l.map f).sum
        - n * a * (l.map g).sum + (l.length : ℚ) * (a * b) := by
  induction l with
  | nil => simp
  | cons p l ih =>
      simp only [List.map_cons, List.sum_cons, List.length_cons, ih,
        Nat.cast_add, Nat.cast_one]
      ring

/-- The scaled variance of the first column is nonnegative. -/
theorem varXN_nonneg (l : List (ℚ × ℚ)) (hl : l ≠ []) : 0 ≤ varXN l := by
  have hn : (0 : ℚ) < (l.length : ℚ) := by
    exact_mod_cast List.length_pos.mpr hl
  have hsq : 0 ≤ (l.map (fun p =>
      ((l.length : ℚ) * p.1 - sumX l) * ((l.length : ℚ) * p.1 - sumX l))).sum := by
    apply List.sum_nonneg
    intro x hx
    rw [List.mem_map] at hx
    obtain ⟨p, _, rfl⟩ := hx
    exact mul_self_nonneg _
  rw [expand_centered_sum l ((l.length : ℚ)) (sumX l) (sumX l) Prod.fst Prod.fst,
    sumX] at hsq
  have hprod : 0 ≤ (l.length : ℚ) * varXN l := by
    rw [varXN, sumXX, sumX]
    nlinarith [hsq]
  by_contra hneg
  push_neg at hneg
  have := mul_neg_of_pos_of_neg hn hneg
  linarith

/-- The scaled variance of the second column is nonnegative. -/
theorem varYN_nonneg (l : List (ℚ × ℚ)) (hl : l ≠ []) : 0 ≤ varYN l := by
  have hn : (0 : ℚ) < (l.length : ℚ) := by
    exact_mod_cast List.length_pos.mpr hl
  have hsq : 0 ≤ (l.map (fun p =>
      ((l.length : ℚ) * p.2 - sumY l) * ((l.length : ℚ) * p.2 - sumY l))).sum := by
    apply List.sum_nonneg
    intro x hx
    rw [List.mem_map] at hx
    obtain ⟨p, _, rfl⟩ := hx
    exact mul_self_nonneg _
  rw [expand_centered_sum l ((l.length : ℚ)) (sumY l) (sumY l) Prod.snd Prod.snd,
    sumY] at hsq
  have hprod : 0 ≤ (l.length : ℚ) * varYN l := by
    rw [varYN, sumYY, sumY]
    nlinarith [hsq]
  by_contra hneg
  push_neg at hneg
  have := mul_neg_of_pos_of_neg hn hneg
  linarith

/-- Cauchy-Schwarz for the Pearson numerator and denominator: the squared
scaled covariance is bounded by the product of the scaled variances, so
the correlation coefficient lies in `[-1, 1]`. -/
theorem covN_sq_le_varProd (l : List (ℚ × ℚ)) (hl : l ≠ []) :
    covN l ^ 2 ≤ varXN l * varYN l := by
  have hn : (0 : ℚ) < (l.length : ℚ) := by
    exact_mod_cast List.length_pos.mpr hl
  have hcs : (l.map (fun p =>
        ((l.length : ℚ) * p.1 - sumX l) * ((l.length : ℚ) * p.2 - sumY l))).sum ^ 2 ≤
      (l.map (fun p =>
        ((l.length : ℚ) * p.1 - sumX l) * ((l.length : ℚ) * p.1 - sumX l))).sum *
      (l.map (fun p =>
        ((l.length : ℚ) * p.2 - sumY l) * ((l.length : ℚ) * p.2 - sumY l))).sum :=
    list_cauchy_schwarz l (fun p => (l.length : ℚ) * p.1 - sumX l)
      (fun p => (l.length : ℚ) * p.2 - sumY l)
  rw [expand_centered_sum l ((l.length : ℚ)) (sumX l) (sumY l) Prod.fst Prod.snd,
    expand_centered_sum l ((l.length : ℚ)) (sumX l) (sumX l) Prod.fst Prod.fst,
    expand_centered_sum l ((l.length : ℚ)) (sumY l) (sumY l) Prod.snd Prod.snd,
    sumX, sumY] at hcs
  have key : ((l.length : ℚ) * (l.length : ℚ)) * (covN l ^ 2) ≤
      ((l.length : ℚ) * (l.length : ℚ)) * (varXN l * varYN l) := by
    rw [covN, varXN, varYN, sumXY, sumXX, sumYY, sumX, sumY]
    nlinarith [hcs]
  exact le_of_mul_le_mul_left key (by positivity)

/-- Counterexample to C4 as stated: the code never raises an
`InsufficientDataError` — no exception type exists in it. On a join with
a single row (fewer than two points) pandas `corr` RETURNS the `NaN`
float, an ordinary value that flows to the display line, rather than
raising anything. -/
theorem correlation_error_counterexample :
    (mergeOnYear [((2000 : Int), (1 : ℚ))] [((2000 : Int), (2 : ℚ))]).length = 1 ∧
    correlation [((2000 : Int), (1 : ℚ))] [((2000 : Int), (2 : ℚ))] =
      CorrResult.nan := by
  have hm : mergeOnYear [((2000 : Int), (1 : ℚ))] [((2000 : Int), (2 : ℚ))] =
      [(2000, (1, 2))] := by
    simp [mergeOnYear]
  refine ⟨by rw [hm]; rfl, ?_⟩
  rw [correlation, hm, pearson, if_pos (Or.inl (by decide))]

/-- C4 amended: `correlation` is the Pearson coefficient computed over
the inner join of the two series on year; when the join has fewer than
two rows it evaluates to the `NaN` placeholder value (returned, not
raised — the code defines no `InsufficientDataError`); whenever it
evaluates to a coefficient `val c v` (standing for `c / √v`), the
coefficient lies in `[-1, 1]`: `c² ≤ v` with `0 < v`. -/
theorem correlation_spec (a b : List (Int × ℚ)) :
    correlation a b = pearson (valuePairs (mergeOnYear a b)) ∧
    ((mergeOnYear a b).length < 2 → correlation a b = CorrResult.nan) ∧
    (∀ c v, correlation a b = CorrResult.val c v → c ^ 2 ≤ v ∧ 0 < v) := by
  refine ⟨rfl, ?_, ?_⟩
  · intro h
    have hlen : (valuePairs (mergeOnYear a b)).length < 2 := by
      rw [valuePairs, List.length_map]
      exact h
    rw [correlation, pearson, if_pos (Or.inl hlen)]
  · intro c v hcv
    rw [correlation, pearson] at hcv
    by_cases hcond : (valuePairs (mergeOnYear a b)).length < 2 ∨
        varXN (valuePairs (mergeOnYear a b)) = 0 ∨
        varYN (valuePairs (mergeOnYear a b)) = 0
    · rw [if_pos hcond] at hcv
      exact absurd hcv (by simp)
    · rw [if_neg hcond] at hcv
      push_neg at hcond
      obtain ⟨hlen, hvx, hvy⟩ := hcond
      have hne : valuePairs (mergeOnYear a b) ≠ [] := by
        intro hempty
        rw [hempty] at hlen
        simp at hlen
      cases hcv
      have hx := lt_of_le_of_ne (varXN_nonneg _ hne) (Ne.symm hvx)
      have hy := lt_of_le_of_ne (varYN_nonneg _ hne) (Ne.symm hvy)
      exact ⟨covN_sq_le_varProd _ hne, mul_pos hx hy⟩

/-- Witness for C4's amended theorem: the empty join evaluates to `NaN`,
and a two-point join with distinct values evaluates to a coefficient
within bounds. -/
theorem correlation_spec_witness :
    correlation ([] : List (Int × ℚ)) [] = CorrResult.nan :=
  (correlation_spec [] []).2.1 (by simp [mergeOnYear])

end Climate
